import Mathlib

/-!
# Configuration resolution of `tracing/options.go`

A shallow embedding of the functional-options resolver of the
obs-opentelemetry tracing package: the `config` record, the six `WithX`
constructors, `defaultConfig` and `newConfig`.

Go interface values and function values may be `nil`; they are embedded as
`Option` of a handle, `none` being `nil`.  A method call through a `nil`
interface value panics; fallible code returns `Except Panic`.
-/

namespace tracing

/-! ## Collaborators outside the package -/

/-- Run-time failure of a Go program that this package can reach. -/
inductive Panic where
  | nilDereference
  deriving DecidableEq, Repr

/-- Options of `TracerProvider.Tracer`; the package passes only
`trace.WithInstrumentationVersion`. -/
inductive TracerOption where
  | WithInstrumentationVersion (version : String)
  deriving DecidableEq, Repr

/-- Options of `MeterProvider.Meter`; the package passes only
`metric.WithInstrumentationVersion`. -/
inductive MeterOption where
  | WithInstrumentationVersion (version : String)
  deriving DecidableEq, Repr

/-- Instrumentation version selected by a list of tracer options (the last
one wins, the empty string when there is none). -/
def TracerOption.version (opts : List TracerOption) : String :=
  opts.foldl (fun _ o => match o with | .WithInstrumentationVersion v => v) ""

/-- Instrumentation version selected by a list of meter options. -/
def MeterOption.version (opts : List MeterOption) : String :=
  opts.foldl (fun _ o => match o with | .WithInstrumentationVersion v => v) ""

/-- Modelled from the spec: a non-nil `trace.Tracer`.  The provider is "a
factory capability that yields a tracer given an identifying name and
version", so a tracer is identified by the provider that made it and the
name and version it is tagged with. -/
structure TracerHandle where
  provider : Nat
  name : String
  version : String
  deriving DecidableEq, Repr

/-- Modelled from the spec: a non-nil `metric.Meter`, identified like a
tracer by its provider and its name and version tag. -/
structure MeterHandle where
  provider : Nat
  name : String
  version : String
  deriving DecidableEq, Repr

/-- A non-nil `trace.TracerProvider`. -/
structure TracerProviderHandle where
  id : Nat
  deriving DecidableEq, Repr

/-- A non-nil `metric.MeterProvider`. -/
structure MeterProviderHandle where
  id : Nat
  deriving DecidableEq, Repr

/-- A non-nil `propagation.TextMapPropagator`. -/
structure PropagatorHandle where
  id : Nat
  deriving DecidableEq, Repr

/-- The interface type `trace.Tracer`. -/
abbrev Tracer := Option TracerHandle

/-- The interface type `metric.Meter`. -/
abbrev Meter := Option MeterHandle

/-- The interface type `trace.TracerProvider`. -/
abbrev TracerProvider := Option TracerProviderHandle

/-- The interface type `metric.MeterProvider`. -/
abbrev MeterProvider := Option MeterProviderHandle

/-- The interface type `propagation.TextMapPropagator`. -/
abbrev TextMapPropagator := Option PropagatorHandle

/-- Modelled from the spec: the method `Tracer(name, opts...)` of a tracer
provider.  Called through a nil interface value it panics; a provider
yields a tracer tagged with the name and version it was asked for. -/
def TracerProvider.Tracer (tp : TracerProvider) (name : String)
    (opts : List TracerOption) : Except Panic Tracer :=
  match tp with
  | none => .error .nilDereference
  | some p => .ok (some ⟨p.id, name, TracerOption.version opts⟩)

/-- Modelled from the spec: the method `Meter(name, opts...)` of a meter
provider, like `TracerProvider.Tracer`. -/
def MeterProvider.Meter (mp : MeterProvider) (name : String)
    (opts : List MeterOption) : Except Panic Meter :=
  match mp with
  | none => .error .nilDereference
  | some p => .ok (some ⟨p.id, name, MeterOption.version opts⟩)

/-- A non-nil `rpcinfo.EndpointInfo`: the part of an endpoint the package
reads. -/
structure EndpointInfo where
  serviceName : String
  method : String
  deriving DecidableEq, Repr

/-- A non-nil `rpcinfo.RPCInfo`: its destination endpoint, which may be
nil. -/
structure RPCInfo where
  dest : Option EndpointInfo
  deriving DecidableEq, Repr

/-- A `context.Context`, reduced to the RPC metadata it may carry. -/
structure Context where
  rpcInfo : Option RPCInfo
  deriving DecidableEq, Repr

/-- Modelled from the spec: `rpcinfo.GetRPCInfo`, the "RPC-metadata
accessor"; nil when the context carries no RPC metadata. -/
def GetRPCInfo (ctx : Context) : Option RPCInfo := ctx.rpcInfo

/-- The method `To()` of `rpcinfo.RPCInfo`; panics on a nil receiver. -/
def RPCInfo.To (ri : Option RPCInfo) : Except Panic (Option EndpointInfo) :=
  match ri with
  | none => .error .nilDereference
  | some r => .ok r.dest

/-- The method `Method()` of `rpcinfo.EndpointInfo`; panics on a nil
receiver. -/
def EndpointInfo.Method (ep : Option EndpointInfo) : Except Panic String :=
  match ep with
  | none => .error .nilDereference
  | some e => .ok e.method

/-- The ambient inputs of a resolution: what `otel.GetTracerProvider()`,
`global.GetMeterProvider()` and `otel.GetTextMapPropagator()` return at
that moment, and the value of the package function `SemVersion()`, whose
body is in another file of the package. -/
structure Env where
  GetTracerProvider : TracerProvider
  GetMeterProvider : MeterProvider
  GetTextMapPropagator : TextMapPropagator
  SemVersion : String
  deriving DecidableEq, Repr

/-! ## The package -/

/-- The constant `instrumentationName`. -/
def instrumentationName : String := "github.com/kitex-contrib/obs-opentelemetry"

/-- The Go type `func(ctx context.Context) string`; nil is `none`, and a
call of a non-nil formatter may panic. -/
abbrev SpanNameFormatter := Option (Context → Except Panic String)

/-- The struct `config`. -/
structure config where
  tracer : Tracer
  meter : Meter
  tracerProvider : TracerProvider
  meterProvider : MeterProvider
  textMapPropagator : TextMapPropagator
  spanNameFormatter : SpanNameFormatter
  withStackTrace : Bool
  recordSourceOperation : Bool

/-- The type `option`, a `func(cfg *config)`: the update it performs on
the record behind the pointer.  It is the only implementation of the
interface `Option`. -/
abbrev option := config → config

/-- The method `option.apply`: `fn(cfg)`. -/
def option.apply (fn : option) (cfg : config) : config := fn cfg

/-- The function literal that `defaultConfig` stores in
`spanNameFormatter`. -/
def defaultSpanNameFormatter (ctx : Context) : Except Panic String := do
  let endpoint ← RPCInfo.To (GetRPCInfo ctx)
  EndpointInfo.Method endpoint

/-- The function `defaultConfig`.  The struct literal lists `meter` not at
all, so it is nil. -/
def defaultConfig (env : Env) : Except Panic config := do
  let tracer ← TracerProvider.Tracer env.GetTracerProvider instrumentationName
    [TracerOption.WithInstrumentationVersion env.SemVersion]
  pure
    { tracerProvider := env.GetTracerProvider
      meterProvider := env.GetMeterProvider
      textMapPropagator := env.GetTextMapPropagator
      recordSourceOperation := false
      withStackTrace := true
      spanNameFormatter := some defaultSpanNameFormatter
      tracer := tracer
      meter := none }

/-- The function `newConfig`. -/
def newConfig (env : Env) (opts : List option) : Except Panic config := do
  let cfg ← defaultConfig env
  let cfg := opts.foldl (fun cfg opt => opt.apply cfg) cfg
  let meter ← MeterProvider.Meter cfg.meterProvider instrumentationName
    [MeterOption.WithInstrumentationVersion env.SemVersion]
  pure { cfg with meter := meter }

/-- The function `WithTracer`. -/
def WithTracer (tracer : Tracer) : option :=
  fun cfg => { cfg with tracer := tracer }

/-- The function `WithMeter`. -/
def WithMeter (meter : Meter) : option :=
  fun cfg => { cfg with meter := meter }

/-- The function `WithSpanNameFormatter`. -/
def WithSpanNameFormatter (fn : SpanNameFormatter) : option :=
  fun cfg => { cfg with spanNameFormatter := fn }

/-- The function `WithStackTrace`. -/
def WithStackTrace (stackTrace : Bool) : option :=
  fun cfg => { cfg with withStackTrace := stackTrace }

/-- The function `WithRecordSourceOperation`. -/
def WithRecordSourceOperation (recordSourceOperation : Bool) : option :=
  fun cfg => { cfg with recordSourceOperation := recordSourceOperation }

/-- The function `WithTextMapPropagator`. -/
def WithTextMapPropagator (p : TextMapPropagator) : option :=
  fun cfg => { cfg with textMapPropagator := p }

/-! ## Sequences built by the six constructors -/

/-- The fields of `config` that an exported constructor writes. -/
inductive Field where
  | tracer
  | meter
  | spanNameFormatter
  | withStackTrace
  | recordSourceOperation
  | textMapPropagator
  deriving DecidableEq, Repr

/-- A call of one of the six exported constructors, with its argument. -/
inductive OptionCall where
  | WithTracer (tracer : Tracer)
  | WithMeter (meter : Meter)
  | WithSpanNameFormatter (fn : SpanNameFormatter)
  | WithStackTrace (stackTrace : Bool)
  | WithRecordSourceOperation (recordSourceOperation : Bool)
  | WithTextMapPropagator (p : TextMapPropagator)

/-- The `Option` value that the call returns. -/
def OptionCall.build : OptionCall → option
  | .WithTracer t => tracing.WithTracer t
  | .WithMeter m => tracing.WithMeter m
  | .WithSpanNameFormatter fn => tracing.WithSpanNameFormatter fn
  | .WithStackTrace b => tracing.WithStackTrace b
  | .WithRecordSourceOperation b => tracing.WithRecordSourceOperation b
  | .WithTextMapPropagator p => tracing.WithTextMapPropagator p

/-- The field assigned in the body of the constructor called. -/
def OptionCall.field : OptionCall → Field
  | .WithTracer _ => .tracer
  | .WithMeter _ => .meter
  | .WithSpanNameFormatter _ => .spanNameFormatter
  | .WithStackTrace _ => .withStackTrace
  | .WithRecordSourceOperation _ => .recordSourceOperation
  | .WithTextMapPropagator _ => .textMapPropagator

/-- The slice of `Option` values that a sequence of constructor calls
produces. -/
def build (calls : List OptionCall) : List option := calls.map OptionCall.build

/-- The record holds, in the field that the call assigns, the value that
the call carries. -/
def OptionCall.writtenIn : OptionCall → config → Prop
  | .WithTracer t, cfg => cfg.tracer = t
  | .WithMeter m, cfg => cfg.meter = m
  | .WithSpanNameFormatter fn, cfg => cfg.spanNameFormatter = fn
  | .WithStackTrace b, cfg => cfg.withStackTrace = b
  | .WithRecordSourceOperation b, cfg => cfg.recordSourceOperation = b
  | .WithTextMapPropagator p, cfg => cfg.textMapPropagator = p

/-- The call hands over a nil capability (a nil tracer, formatter or
propagator; a nil meter is overwritten by the derivation in any case). -/
def OptionCall.carriesNil : OptionCall → Bool
  | .WithTracer t => t.isNone
  | .WithMeter _ => false
  | .WithSpanNameFormatter fn => fn.isNone
  | .WithStackTrace _ => false
  | .WithRecordSourceOperation _ => false
  | .WithTextMapPropagator p => p.isNone

/-- Every capability field of the record is non-nil. -/
def config.capabilitiesNonNil (cfg : config) : Bool :=
  cfg.tracer.isSome && cfg.meter.isSome && cfg.tracerProvider.isSome &&
    cfg.meterProvider.isSome && cfg.textMapPropagator.isSome &&
    cfg.spanNameFormatter.isSome

/-- The record's tracer is tagged with the given instrumentation name and
version. -/
def config.tracerTagged (cfg : config) (name version : String) : Prop :=
  ∃ t, cfg.tracer = some t ∧ t.name = name ∧ t.version = version

/-- The record's meter is tagged with the given instrumentation name and
version. -/
def config.meterTagged (cfg : config) (name version : String) : Prop :=
  ∃ m, cfg.meter = some m ∧ m.name = name ∧ m.version = version

/-! ## Records behind pointers -/

/-- The `config` records allocated so far. -/
abbrev Heap := List config

/-- A `*config`: the position of the record in the heap. -/
abbrev Ptr := Nat

/-- Allocation `&config{...}`: a fresh record and the pointer to it. -/
def Heap.alloc (h : Heap) (c : config) : Heap × Ptr := (h ++ [c], h.length)

/-- Reading through a pointer. -/
def Heap.load (h : Heap) (p : Ptr) : Except Panic config :=
  match h[p]? with
  | none => .error .nilDereference
  | some c => .ok c

/-- Writing through a pointer. -/
def Heap.store (h : Heap) (p : Ptr) (c : config) : Heap := h.set p c

/-- The method `option.apply` on the pointer it receives: the update is made
in place in the record that `cfg` points to. -/
def option.applyAt (fn : option) (cfg : Ptr) (h : Heap) : Except Panic Heap := do
  let c ← Heap.load h cfg
  pure (Heap.store h cfg (fn c))

/-- The function `defaultConfig`, returning the pointer to the record it
allocates. -/
def defaultConfigRef (env : Env) (h : Heap) : Except Panic (Heap × Ptr) := do
  let c ← defaultConfig env
  pure (Heap.alloc h c)

/-- The function `newConfig`, returning the pointer `cfg`. -/
def newConfigRef (env : Env) (opts : List option) (h : Heap) :
    Except Panic (Heap × Ptr) := do
  let (h, cfg) ← defaultConfigRef env h
  let h ← opts.foldlM (fun h opt => opt.applyAt cfg h) h
  let c ← Heap.load h cfg
  let meter ← MeterProvider.Meter c.meterProvider instrumentationName
    [MeterOption.WithInstrumentationVersion env.SemVersion]
  pure (Heap.store h cfg { c with meter := meter }, cfg)

/-- The assignment `p.withStackTrace = b` made by a holder of the pointer. -/
def setWithStackTrace (p : Ptr) (b : Bool) (h : Heap) : Except Panic Heap := do
  let c ← Heap.load h p
  pure (Heap.store h p { c with withStackTrace := b })

/-- The assignment `p.recordSourceOperation = b` made by a holder of the
pointer. -/
def setRecordSourceOperation (p : Ptr) (b : Bool) (h : Heap) : Except Panic Heap := do
  let c ← Heap.load h p
  pure (Heap.store h p { c with recordSourceOperation := b })

/-! ## Auxiliary facts -/

/-- The record that `defaultConfig` builds when the global tracer provider
is `tp`. -/
theorem defaultConfig_ok (tp : TracerProviderHandle) (mp : MeterProvider)
    (prop : TextMapPropagator) (ver : String) :
    defaultConfig ⟨some tp, mp, prop, ver⟩ = .ok
      { tracer := some ⟨tp.id, instrumentationName, ver⟩
        meter := none
        tracerProvider := some tp
        meterProvider := mp
        textMapPropagator := prop
        spanNameFormatter := some defaultSpanNameFormatter
        withStackTrace := true
        recordSourceOperation := false } := rfl

/-- No constructor-built option touches `meterProvider`. -/
theorem foldl_build_meterProvider (calls : List OptionCall) (cfg : config) :
    ((build calls).foldl (fun cfg opt => option.apply opt cfg) cfg).meterProvider
      = cfg.meterProvider := by
  induction calls generalizing cfg with
  | nil => rfl
  | cons o rest ih =>
    simp only [build, List.map_cons, List.foldl_cons] at ih ⊢
    rw [ih]
    cases o <;> rfl

/-- No constructor-built option touches `tracerProvider`. -/
theorem foldl_build_tracerProvider (calls : List OptionCall) (cfg : config) :
    ((build calls).foldl (fun cfg opt => option.apply opt cfg) cfg).tracerProvider
      = cfg.tracerProvider := by
  induction calls generalizing cfg with
  | nil => rfl
  | cons o rest ih =>
    simp only [build, List.map_cons, List.foldl_cons] at ih ⊢
    rw [ih]
    cases o <;> rfl

/-- Resolution of a constructor-built sequence, written out: the options
folded over the defaults, then the derived meter. -/
theorem newConfig_build (tp : TracerProviderHandle) (mp : MeterProviderHandle)
    (prop : TextMapPropagator) (ver : String) (calls : List OptionCall) :
    newConfig ⟨some tp, some mp, prop, ver⟩ (build calls) = .ok
      { (build calls).foldl (fun cfg opt => option.apply opt cfg)
          { tracer := some ⟨tp.id, instrumentationName, ver⟩
            meter := none
            tracerProvider := some tp
            meterProvider := some mp
            textMapPropagator := prop
            spanNameFormatter := some defaultSpanNameFormatter
            withStackTrace := true
            recordSourceOperation := false }
        with meter := some ⟨mp.id, instrumentationName, ver⟩ } := by
  unfold newConfig
  rw [defaultConfig_ok]
  simp only [Except.bind, bind, foldl_build_meterProvider]
  rfl

/-- Whatever closures are applied, a record that `newConfig` returns holds
the meter that its own `meterProvider` yields for the fixed name and
version. -/
theorem newConfig_meter_derived (env : Env) (opts : List option) (cfg : config)
    (h : newConfig env opts = .ok cfg) :
    MeterProvider.Meter cfg.meterProvider instrumentationName
      [MeterOption.WithInstrumentationVersion env.SemVersion] = .ok cfg.meter := by
  unfold newConfig at h
  cases hd : defaultConfig env with
  | error e => rw [hd] at h; cases h
  | ok d =>
    rw [hd] at h
    simp only [Except.bind, bind] at h
    generalize List.foldl (fun cfg opt => option.apply opt cfg) d opts = c at h
    cases hm : MeterProvider.Meter c.meterProvider instrumentationName
        [MeterOption.WithInstrumentationVersion env.SemVersion] with
    | error e => rw [hm] at h; cases h
    | ok m =>
      rw [hm] at h
      cases h
      exact hm

/-- A meter stored before constructor-built options run is invisible once the
meter is assigned afterwards. -/
theorem foldl_build_meter_absorb (calls : List OptionCall) (cfg : config) (x y : Meter) :
    { (build calls).foldl (fun cfg opt => option.apply opt cfg) { cfg with meter := y }
        with meter := x }
      = { (build calls).foldl (fun cfg opt => option.apply opt cfg) cfg
            with meter := x } := by
  induction calls generalizing cfg y with
  | nil => rfl
  | cons o rest ih =>
    simp only [build, List.map_cons, List.foldl_cons] at ih ⊢
    cases o with
    | WithMeter m => rfl
    | WithTracer t => exact ih { cfg with tracer := t } y
    | WithSpanNameFormatter fn => exact ih { cfg with spanNameFormatter := fn } y
    | WithStackTrace b => exact ih { cfg with withStackTrace := b } y
    | WithRecordSourceOperation b => exact ih { cfg with recordSourceOperation := b } y
    | WithTextMapPropagator q => exact ih { cfg with textMapPropagator := q } y

/-- A constructor call writes its value into its field. -/
theorem writtenIn_build (o : OptionCall) (cfg : config) :
    o.writtenIn (option.apply o.build cfg) := by
  cases o <;> rfl

/-- A constructor call for another field leaves a written value in place. -/
theorem writtenIn_build_of_ne (o o' : OptionCall) (cfg : config)
    (hne : o'.field ≠ o.field) (hw : o.writtenIn cfg) :
    o.writtenIn (option.apply o'.build cfg) := by
  cases o <;> cases o' <;>
    first
      | exact absurd rfl hne
      | exact hw

/-- A written value survives every later call that assigns another field. -/
theorem writtenIn_foldl (o : OptionCall) (post : List OptionCall) (cfg : config)
    (hpost : ∀ o' ∈ post, o'.field ≠ o.field) (hw : o.writtenIn cfg) :
    o.writtenIn ((build post).foldl (fun cfg opt => option.apply opt cfg) cfg) := by
  induction post generalizing cfg with
  | nil => exact hw
  | cons o' rest ih =>
    simp only [build, List.map_cons, List.foldl_cons] at ih ⊢
    exact ih _ (fun x hx => hpost x (List.mem_cons_of_mem _ hx))
      (writtenIn_build_of_ne o o' cfg (hpost o' (List.mem_cons_self _ _)) hw)

/-- The derivation of the meter leaves a value written in another field in
place. -/
theorem writtenIn_with_meter (o : OptionCall) (cfg : config) (x : Meter)
    (hne : o.field ≠ Field.meter) (hw : o.writtenIn cfg) :
    o.writtenIn { cfg with meter := x } := by
  cases o <;>
    first
      | exact absurd rfl hne
      | exact hw

/-- Two constructor calls for different fields commute. -/
theorem build_comm (a b : OptionCall) (hne : a.field ≠ b.field) (cfg : config) :
    option.apply b.build (option.apply a.build cfg)
      = option.apply a.build (option.apply b.build cfg) := by
  cases a <;> cases b <;>
    first
      | exact absurd rfl hne
      | rfl

/-- The fold of `newConfig` over a constructor-built sequence, as a fold over
the calls. -/
theorem foldl_build (calls : List OptionCall) (cfg : config) :
    (build calls).foldl (fun cfg opt => option.apply opt cfg) cfg
      = calls.foldl (fun cfg o => option.apply o.build cfg) cfg := by
  simp [build, List.foldl_map]

/-- Reordering calls that assign pairwise different fields does not change
the record they produce. -/
theorem foldl_build_perm (l l' : List OptionCall) (cfg : config)
    (hnd : (l.map OptionCall.field).Nodup) (hp : l.Perm l') :
    (build l').foldl (fun cfg opt => option.apply opt cfg) cfg
      = (build l).foldl (fun cfg opt => option.apply opt cfg) cfg := by
  rw [foldl_build, foldl_build]
  refine (List.Perm.foldl_eq' hp ?_ cfg).symm
  intro x hx y hy z
  by_cases hxy : x.field = y.field
  · have : x = y := List.inj_on_of_nodup_map hnd hx hy hxy
    subst this
    rfl
  · exact build_comm x y hxy z

/-- Reading the record allocated last. -/
theorem Heap.load_alloc (h : Heap) (c : config) :
    Heap.load (h ++ [c]) h.length = .ok c := by
  simp [Heap.load]

/-- Overwriting the record allocated last. -/
theorem Heap.store_alloc (h : Heap) (c c' : config) :
    Heap.store (h ++ [c]) h.length c' = h ++ [c'] := by
  simp [Heap.store]

/-- Applying options through the pointer to the record allocated last
updates that record as the fold over the record does, and nothing else. -/
theorem foldlM_applyAt (opts : List option) (h : Heap) (c : config) :
    opts.foldlM (fun hp opt => option.applyAt opt h.length hp) (h ++ [c])
      = Except.ok (h ++ [opts.foldl (fun cfg opt => option.apply opt cfg) c]) := by
  induction opts generalizing c with
  | nil => rfl
  | cons o rest ih =>
    simp only [List.foldlM_cons, List.foldl_cons, option.applyAt, Heap.load_alloc,
      Heap.store_alloc]
    exact ih (o c)

/-- The pointer version of `newConfig` allocates one record at the end of
the heap, holding the record that `newConfig` computes. -/
theorem newConfigRef_eq (env : Env) (opts : List option) (h : Heap) :
    newConfigRef env opts h
      = (newConfig env opts).map (fun c => (h ++ [c], h.length)) := by
  unfold newConfigRef newConfig defaultConfigRef
  cases defaultConfig env with
  | error e => rfl
  | ok d =>
    simp only [Except.bind, bind, pure, Except.pure, Heap.alloc, foldlM_applyAt,
      Heap.load_alloc, Heap.store_alloc]
    cases MeterProvider.Meter
        (List.foldl (fun cfg opt => option.apply opt cfg) d opts).meterProvider
        instrumentationName [MeterOption.WithInstrumentationVersion env.SemVersion] with
    | error e => rfl
    | ok m => rfl

/-- Without a `WithSpanNameFormatter` call the resolved formatter is the
default one. -/
theorem newConfig_build_formatter (tp : TracerProviderHandle) (mp : MeterProviderHandle)
    (prop : TextMapPropagator) (ver : String) (calls : List OptionCall)
    (hno : ∀ o ∈ calls, o.field ≠ Field.spanNameFormatter) :
    ∃ cfg, newConfig ⟨some tp, some mp, prop, ver⟩ (build calls) = .ok cfg ∧
      cfg.spanNameFormatter = some defaultSpanNameFormatter := by
  refine ⟨_, newConfig_build tp mp prop ver calls, ?_⟩
  exact writtenIn_foldl (OptionCall.WithSpanNameFormatter (some defaultSpanNameFormatter))
    calls _ hno rfl

/-- Without a `WithTracer` call the resolved tracer is the default one. -/
theorem newConfig_build_tracer (tp : TracerProviderHandle) (mp : MeterProviderHandle)
    (prop : TextMapPropagator) (ver : String) (calls : List OptionCall)
    (hno : ∀ o ∈ calls, o.field ≠ Field.tracer) :
    ∃ cfg, newConfig ⟨some tp, some mp, prop, ver⟩ (build calls) = .ok cfg ∧
      cfg.tracer = some ⟨tp.id, instrumentationName, ver⟩ := by
  refine ⟨_, newConfig_build tp mp prop ver calls, ?_⟩
  exact writtenIn_foldl (OptionCall.WithTracer (some ⟨tp.id, instrumentationName, ver⟩))
    calls _ hno rfl

/-- Calls that carry no nil capability keep the five capability fields they
can reach, and the two providers, non-nil. -/
theorem foldl_build_nonNil (calls : List OptionCall) (cfg : config)
    (hnn : ∀ o ∈ calls, o.carriesNil = false)
    (h : cfg.tracer.isSome ∧ cfg.tracerProvider.isSome ∧ cfg.meterProvider.isSome ∧
      cfg.textMapPropagator.isSome ∧ cfg.spanNameFormatter.isSome) :
    ((build calls).foldl (fun cfg opt => option.apply opt cfg) cfg).tracer.isSome ∧
    ((build calls).foldl (fun cfg opt => option.apply opt cfg) cfg).tracerProvider.isSome ∧
    ((build calls).foldl (fun cfg opt => option.apply opt cfg) cfg).meterProvider.isSome ∧
    ((build calls).foldl (fun cfg opt => option.apply opt cfg) cfg).textMapPropagator.isSome ∧
    ((build calls).foldl (fun cfg opt => option.apply opt cfg) cfg).spanNameFormatter.isSome := by
  induction calls generalizing cfg with
  | nil => exact h
  | cons o rest ih =>
    simp only [build, List.map_cons, List.foldl_cons] at ih ⊢
    apply ih _ (fun x hx => hnn x (List.mem_cons_of_mem _ hx))
    have ho := hnn o (List.mem_cons_self _ _)
    obtain ⟨h1, h2, h3, h4, h5⟩ := h
    cases o with
    | WithTracer t => exact ⟨by simpa [OptionCall.carriesNil] using ho, h2, h3, h4, h5⟩
    | WithMeter m => exact ⟨h1, h2, h3, h4, h5⟩
    | WithSpanNameFormatter fn =>
      refine ⟨h1, h2, h3, h4, ?_⟩
      cases fn with
      | none => simp [OptionCall.carriesNil] at ho
      | some f => rfl
    | WithStackTrace b => exact ⟨h1, h2, h3, h4, h5⟩
    | WithRecordSourceOperation b => exact ⟨h1, h2, h3, h4, h5⟩
    | WithTextMapPropagator q =>
      exact ⟨h1, h2, h3, by simpa [OptionCall.carriesNil] using ho, h5⟩

/-- A write through one pointer is not seen through another. -/
theorem Heap.load_store_ne (h : Heap) (p q : Ptr) (c : config) (hne : p ≠ q) :
    Heap.load (Heap.store h p c) q = Heap.load h q := by
  unfold Heap.load Heap.store
  rw [List.getElem?_set_ne hne]

/-- Assigning `withStackTrace` through a valid pointer succeeds and changes
no record behind another pointer. -/
theorem setWithStackTrace_frame (h : Heap) (p q : Ptr) (b : Bool) (c : config)
    (hp : Heap.load h p = .ok c) (hne : p ≠ q) :
    ∃ h3, setWithStackTrace p b h = .ok h3 ∧ Heap.load h3 q = Heap.load h q := by
  refine ⟨Heap.store h p { c with withStackTrace := b }, ?_, Heap.load_store_ne h p q _ hne⟩
  unfold setWithStackTrace
  rw [hp]
  rfl

/-- Assigning `recordSourceOperation` through a valid pointer succeeds and
changes no record behind another pointer. -/
theorem setRecordSourceOperation_frame (h : Heap) (p q : Ptr) (b : Bool) (c : config)
    (hp : Heap.load h p = .ok c) (hne : p ≠ q) :
    ∃ h3, setRecordSourceOperation p b h = .ok h3 ∧ Heap.load h3 q = Heap.load h q := by
  refine ⟨Heap.store h p { c with recordSourceOperation := b }, ?_,
    Heap.load_store_ne h p q _ hne⟩
  unfold setRecordSourceOperation
  rw [hp]
  rfl

/-- Dropping the `WithMeter` calls of a sequence is invisible once the meter
is assigned afterwards. -/
theorem foldl_build_filter_meter (calls : List OptionCall) (cfg : config) (x : Meter) :
    { (build (calls.filter (fun o => decide (o.field ≠ Field.meter)))).foldl
          (fun cfg opt => option.apply opt cfg) cfg with meter := x }
      = { (build calls).foldl (fun cfg opt => option.apply opt cfg) cfg
            with meter := x } := by
  induction calls generalizing cfg with
  | nil => rfl
  | cons o rest ih =>
    cases o with
    | WithMeter m =>
      have hdrop : (OptionCall.WithMeter m :: rest).filter
          (fun o => decide (o.field ≠ Field.meter))
          = rest.filter (fun o => decide (o.field ≠ Field.meter)) := by
        simp [OptionCall.field]
      rw [hdrop, ih cfg]
      have habs := foldl_build_meter_absorb rest cfg x m
      simp only [build, List.map_cons, List.foldl_cons] at habs ⊢
      exact habs.symm
    | WithTracer t =>
      simpa [build, OptionCall.field] using ih (option.apply (tracing.WithTracer t) cfg)
    | WithSpanNameFormatter fn =>
      simpa [build, OptionCall.field] using
        ih (option.apply (tracing.WithSpanNameFormatter fn) cfg)
    | WithStackTrace b =>
      simpa [build, OptionCall.field] using ih (option.apply (tracing.WithStackTrace b) cfg)
    | WithRecordSourceOperation b =>
      simpa [build, OptionCall.field] using
        ih (option.apply (tracing.WithRecordSourceOperation b) cfg)
    | WithTextMapPropagator q =>
      simpa [build, OptionCall.field] using
        ih (option.apply (tracing.WithTextMapPropagator q) cfg)

/-- The result of `newConfig` on a constructor-built sequence depends on the
sequence only through the folded record with its meter overwritten. -/
theorem newConfig_build_congr (env : Env) (l l' : List OptionCall)
    (h : ∀ (cfg : config) (x : Meter),
      { (build l).foldl (fun cfg opt => option.apply opt cfg) cfg with meter := x }
        = { (build l').foldl (fun cfg opt => option.apply opt cfg) cfg
              with meter := x }) :
    newConfig env (build l) = newConfig env (build l') := by
  unfold newConfig
  cases defaultConfig env with
  | error e => rfl
  | ok d =>
    simp only [Except.bind, bind, foldl_build_meterProvider]
    cases MeterProvider.Meter d.meterProvider instrumentationName
        [MeterOption.WithInstrumentationVersion env.SemVersion] with
    | error e => rfl
    | ok m =>
      have h' := h d m
      simp only [foldl_build_meterProvider] at h'
      exact congrArg Except.ok h'

/-! ## Resolution of the empty sequence -/

/-- C1: for the empty option sequence and global providers that are not
nil, `newConfig` returns the record of the documented defaults: the three
global capabilities, `withStackTrace = true`, `recordSourceOperation =
false`, the default formatter, the tracer of the global tracer provider
and the meter of the global meter provider, both for the name
`instrumentationName` and the version `SemVersion()`. -/
theorem newConfig_nil_eq_defaults (tp : TracerProviderHandle) (mp : MeterProviderHandle)
    (prop : TextMapPropagator) (ver : String) :
    newConfig ⟨some tp, some mp, prop, ver⟩ [] = .ok
      { tracer := some ⟨tp.id, instrumentationName, ver⟩
        meter := some ⟨mp.id, instrumentationName, ver⟩
        tracerProvider := some tp
        meterProvider := some mp
        textMapPropagator := prop
        spanNameFormatter := some defaultSpanNameFormatter
        withStackTrace := true
        recordSourceOperation := false } ∧
    TracerProvider.Tracer (some tp) instrumentationName
        [TracerOption.WithInstrumentationVersion ver]
      = .ok (some ⟨tp.id, instrumentationName, ver⟩) ∧
    MeterProvider.Meter (some mp) instrumentationName
        [MeterOption.WithInstrumentationVersion ver]
      = .ok (some ⟨mp.id, instrumentationName, ver⟩) := by
  refine ⟨rfl, rfl, rfl⟩

/-! ## The derived meter -/

/-- C2: for every sequence of constructor calls, `WithMeter` calls at any
position included, `newConfig` returns a record whose meter is the one
that the record's own `meterProvider` yields for `instrumentationName` and
`SemVersion()`; replacing the argument of a `WithMeter` call by any other
meter gives the same record, so the result does not depend on the meter
supplied. -/
theorem newConfig_meter_from_provider (tp : TracerProviderHandle)
    (mp : MeterProviderHandle) (prop : TextMapPropagator) (ver : String)
    (calls : List OptionCall) :
    ∃ cfg, newConfig ⟨some tp, some mp, prop, ver⟩ (build calls) = .ok cfg ∧
      MeterProvider.Meter cfg.meterProvider instrumentationName
        [MeterOption.WithInstrumentationVersion ver] = .ok cfg.meter ∧
      ∀ (pre post : List OptionCall) (m m' : Meter),
        calls = pre ++ OptionCall.WithMeter m :: post →
        newConfig ⟨some tp, some mp, prop, ver⟩
          (build (pre ++ OptionCall.WithMeter m' :: post)) = .ok cfg := by
  refine ⟨_, newConfig_build tp mp prop ver calls, ?_, ?_⟩
  · exact newConfig_meter_derived ⟨some tp, some mp, prop, ver⟩ (build calls) _
      (newConfig_build tp mp prop ver calls)
  · intro pre post m m' hc
    subst hc
    rw [newConfig_build]
    congr 1
    simp only [build, List.map_append, List.map_cons, List.foldl_append, List.foldl_cons]
    have key := fun y c => foldl_build_meter_absorb post c
      (some ⟨mp.id, instrumentationName, ver⟩) y
    simp only [build] at key
    exact (key m' _).trans (key m _).symm

/-- Witness of C2: `WithMeter(m)` alone resolves to the meter of the global
meter provider, and so does `WithMeter(nil)`. -/
theorem newConfig_meter_from_provider_witness :
    ∃ cfg, newConfig ⟨some ⟨1⟩, some ⟨2⟩, none, "v"⟩
        (build [OptionCall.WithMeter (some ⟨9, "m", "0"⟩)]) = .ok cfg ∧
      cfg.meter = some ⟨2, instrumentationName, "v"⟩ ∧
      newConfig ⟨some ⟨1⟩, some ⟨2⟩, none, "v"⟩
        (build [OptionCall.WithMeter none]) = .ok cfg := by
  obtain ⟨cfg, h1, h2, h3⟩ := newConfig_meter_from_provider ⟨1⟩ ⟨2⟩ none "v"
    [OptionCall.WithMeter (some ⟨9, "m", "0"⟩)]
  refine ⟨cfg, h1, ?_, h3 [] [] (some ⟨9, "m", "0"⟩) none rfl⟩
  have h4 : newConfig ⟨some ⟨1⟩, some ⟨2⟩, none, "v"⟩
      (build [OptionCall.WithMeter (some ⟨9, "m", "0"⟩)]) = .ok _ := rfl
  rw [h4] at h1
  cases h1
  rfl

/-! ## Order of the options -/

/-- C3: last write wins.  When a call `o` of `WithTracer`,
`WithSpanNameFormatter`, `WithStackTrace`, `WithRecordSourceOperation` or
`WithTextMapPropagator` is followed only by calls that assign other fields,
the resolved record holds the value of `o` in the field of `o`, whatever
calls come before it or after it. -/
theorem newConfig_last_write_wins (tp : TracerProviderHandle)
    (mp : MeterProviderHandle) (prop : TextMapPropagator) (ver : String)
    (pre post : List OptionCall) (o : OptionCall)
    (hfield : o.field ≠ Field.meter)
    (hlast : ∀ o' ∈ post, o'.field ≠ o.field) :
    ∃ cfg, newConfig ⟨some tp, some mp, prop, ver⟩ (build (pre ++ o :: post)) = .ok cfg ∧
      o.writtenIn cfg := by
  refine ⟨_, newConfig_build tp mp prop ver _, ?_⟩
  apply writtenIn_with_meter _ _ _ hfield
  have hsplit : build (pre ++ o :: post) = build pre ++ o.build :: build post := by
    simp [build]
  rw [hsplit, List.foldl_append, List.foldl_cons]
  exact writtenIn_foldl o post _ hlast (writtenIn_build o _)

/-- Witness of C3: `WithStackTrace(true)`, `WithTracer(nil)`,
`WithStackTrace(false)`, `WithMeter(nil)` resolves to
`withStackTrace = false`. -/
theorem newConfig_last_write_wins_witness :
    ∃ cfg, newConfig ⟨some ⟨1⟩, some ⟨2⟩, none, "v"⟩
        (build ([OptionCall.WithStackTrace true, OptionCall.WithTracer none]
          ++ OptionCall.WithStackTrace false :: [OptionCall.WithMeter none])) = .ok cfg ∧
      (OptionCall.WithStackTrace false).writtenIn cfg :=
  newConfig_last_write_wins ⟨1⟩ ⟨2⟩ none "v"
    [OptionCall.WithStackTrace true, OptionCall.WithTracer none]
    [OptionCall.WithMeter none] (OptionCall.WithStackTrace false)
    (by decide) (by decide)

/-- C4: when no two calls of a sequence assign the same field, `newConfig`
of any permutation of the sequence returns the same record as `newConfig`
of the sequence, in the same environment. -/
theorem newConfig_perm (env : Env) (l l' : List OptionCall)
    (hnd : (l.map OptionCall.field).Nodup) (hp : l.Perm l') :
    newConfig env (build l') = newConfig env (build l) := by
  unfold newConfig
  cases defaultConfig env with
  | error e => rfl
  | ok d =>
    simp only [Except.bind, bind]
    rw [foldl_build_perm l l' d hnd hp]

/-- Witness of C4: `WithStackTrace(false)` and `WithTracer(nil)` in both
orders. -/
theorem newConfig_perm_witness :
    newConfig ⟨some ⟨1⟩, some ⟨2⟩, none, "v"⟩
        (build [OptionCall.WithTracer none, OptionCall.WithStackTrace false])
      = newConfig ⟨some ⟨1⟩, some ⟨2⟩, none, "v"⟩
        (build [OptionCall.WithStackTrace false, OptionCall.WithTracer none]) :=
  newConfig_perm ⟨some ⟨1⟩, some ⟨2⟩, none, "v"⟩
    [OptionCall.WithStackTrace false, OptionCall.WithTracer none]
    [OptionCall.WithTracer none, OptionCall.WithStackTrace false]
    (by decide) (List.Perm.swap _ _ _)

/-! ## Totality -/

/-- C5: for global providers that are not nil and every sequence of
constructor calls, nil arguments included, `newConfig` returns a record
and does not panic; the record's `meterProvider` is the global one, so the
derivation has a provider to call. -/
theorem newConfig_total (tp : TracerProviderHandle) (mp : MeterProviderHandle)
    (prop : TextMapPropagator) (ver : String) (calls : List OptionCall) :
    ∃ cfg, newConfig ⟨some tp, some mp, prop, ver⟩ (build calls) = .ok cfg ∧
      cfg.meterProvider = some mp := by
  refine ⟨_, newConfig_build tp mp prop ver calls, ?_⟩
  exact foldl_build_meterProvider calls _

/-! ## The default span name formatter -/

/-- C6: when the sequence has no `WithSpanNameFormatter` call, the resolved
formatter, called on a context whose RPC metadata has a destination
endpoint, returns that endpoint's method name. -/
theorem defaultFormatter_returns_method (tp : TracerProviderHandle)
    (mp : MeterProviderHandle) (prop : TextMapPropagator) (ver : String)
    (calls : List OptionCall)
    (hno : ∀ o ∈ calls, o.field ≠ Field.spanNameFormatter) :
    ∃ cfg fn, newConfig ⟨some tp, some mp, prop, ver⟩ (build calls) = .ok cfg ∧
      cfg.spanNameFormatter = some fn ∧
      ∀ (ctx : Context) (ri : RPCInfo) (ep : EndpointInfo),
        GetRPCInfo ctx = some ri → RPCInfo.To (some ri) = .ok (some ep) →
        fn ctx = .ok ep.method := by
  obtain ⟨cfg, hcfg, hfn⟩ := newConfig_build_formatter tp mp prop ver calls hno
  refine ⟨cfg, defaultSpanNameFormatter, hcfg, hfn, ?_⟩
  intro ctx ri ep hri hto
  unfold defaultSpanNameFormatter
  rw [hri, hto]
  rfl

/-- Witness of C6: a context whose destination endpoint has the method
`Echo`, after `WithStackTrace(false)`. -/
theorem defaultFormatter_returns_method_witness :
    ∃ cfg fn, newConfig ⟨some ⟨1⟩, some ⟨2⟩, none, "v"⟩
        (build [OptionCall.WithStackTrace false]) = .ok cfg ∧
      cfg.spanNameFormatter = some fn ∧
      fn ⟨some ⟨some ⟨"svc", "Echo"⟩⟩⟩ = .ok "Echo" := by
  obtain ⟨cfg, fn, h1, h2, h3⟩ := defaultFormatter_returns_method ⟨1⟩ ⟨2⟩ none "v"
    [OptionCall.WithStackTrace false] (by decide)
  exact ⟨cfg, fn, h1, h2, h3 ⟨some ⟨some ⟨"svc", "Echo"⟩⟩⟩ ⟨some ⟨"svc", "Echo"⟩⟩
    ⟨"svc", "Echo"⟩ rfl rfl⟩

/-- C7: when the sequence has no `WithSpanNameFormatter` call, the resolved
formatter, called on a context that carries no RPC metadata, panics: it
returns no string, empty or not. -/
theorem defaultFormatter_fails_without_rpcinfo (tp : TracerProviderHandle)
    (mp : MeterProviderHandle) (prop : TextMapPropagator) (ver : String)
    (calls : List OptionCall)
    (hno : ∀ o ∈ calls, o.field ≠ Field.spanNameFormatter) :
    ∃ cfg fn, newConfig ⟨some tp, some mp, prop, ver⟩ (build calls) = .ok cfg ∧
      cfg.spanNameFormatter = some fn ∧
      ∀ ctx : Context, GetRPCInfo ctx = none →
        fn ctx = .error Panic.nilDereference ∧ ∀ s : String, fn ctx ≠ .ok s := by
  obtain ⟨cfg, hcfg, hfn⟩ := newConfig_build_formatter tp mp prop ver calls hno
  refine ⟨cfg, defaultSpanNameFormatter, hcfg, hfn, ?_⟩
  intro ctx hri
  have hfail : defaultSpanNameFormatter ctx = .error Panic.nilDereference := by
    unfold defaultSpanNameFormatter
    rw [hri]
    rfl
  refine ⟨hfail, ?_⟩
  intro s hs
  rw [hfail] at hs
  cases hs

/-- Witness of C7: the empty sequence and the context without RPC
metadata. -/
theorem defaultFormatter_fails_without_rpcinfo_witness :
    ∃ cfg fn, newConfig ⟨some ⟨1⟩, some ⟨2⟩, none, "v"⟩ (build []) = .ok cfg ∧
      cfg.spanNameFormatter = some fn ∧
      fn ⟨none⟩ = .error Panic.nilDereference ∧ fn ⟨none⟩ ≠ .ok "" := by
  obtain ⟨cfg, fn, h1, h2, h3⟩ := defaultFormatter_fails_without_rpcinfo ⟨1⟩ ⟨2⟩ none "v"
    [] (by decide)
  exact ⟨cfg, fn, h1, h2, (h3 ⟨none⟩ rfl).1, (h3 ⟨none⟩ rfl).2 ""⟩

/-! ## Nil capabilities -/

/-- C8, as stated, fails: after `WithTracer(nil)` the resolved record has
a nil tracer, with all three global capabilities non-nil. -/
theorem newConfig_nil_tracer_counterexample :
    ∃ cfg, newConfig ⟨some ⟨1⟩, some ⟨2⟩, some ⟨3⟩, "v"⟩
        (build [OptionCall.WithTracer none]) = .ok cfg ∧
      cfg.tracer = none ∧ cfg.capabilitiesNonNil = false :=
  ⟨_, rfl, rfl, rfl⟩

/-- C8, amended: when the global tracer provider, meter provider and
propagator are not nil and no `WithTracer`, `WithSpanNameFormatter` or
`WithTextMapPropagator` call of the sequence carries nil, every capability
field of the resolved record is non-nil. -/
theorem newConfig_capabilities_nonNil (tp : TracerProviderHandle)
    (mp : MeterProviderHandle) (prop : PropagatorHandle) (ver : String)
    (calls : List OptionCall) (hnn : ∀ o ∈ calls, o.carriesNil = false) :
    ∃ cfg, newConfig ⟨some tp, some mp, some prop, ver⟩ (build calls) = .ok cfg ∧
      cfg.capabilitiesNonNil = true := by
  refine ⟨_, newConfig_build tp mp (some prop) ver calls, ?_⟩
  obtain ⟨h1, h2, h3, h4, h5⟩ := foldl_build_nonNil calls
    { tracer := some ⟨tp.id, instrumentationName, ver⟩
      meter := none
      tracerProvider := some tp
      meterProvider := some mp
      textMapPropagator := some prop
      spanNameFormatter := some defaultSpanNameFormatter
      withStackTrace := true
      recordSourceOperation := false } hnn ⟨rfl, rfl, rfl, rfl, rfl⟩
  simp [config.capabilitiesNonNil, h1, h2, h3, h4, h5]

/-- Witness of C8, amended: a tracer and a propagator that are not nil. -/
theorem newConfig_capabilities_nonNil_witness :
    ∃ cfg, newConfig ⟨some ⟨1⟩, some ⟨2⟩, some ⟨3⟩, "v"⟩
        (build [OptionCall.WithTracer (some ⟨7, "t", "0"⟩),
          OptionCall.WithTextMapPropagator (some ⟨8⟩)]) = .ok cfg ∧
      cfg.capabilitiesNonNil = true :=
  newConfig_capabilities_nonNil ⟨1⟩ ⟨2⟩ ⟨3⟩ "v"
    [OptionCall.WithTracer (some ⟨7, "t", "0"⟩),
      OptionCall.WithTextMapPropagator (some ⟨8⟩)] (by decide)

/-! ## Instrumentation name and version -/

/-- C9, as stated, fails: after `WithTracer(t)` for a tracer `t` made under
another name and version, the resolved meter carries the fixed name and
`SemVersion()` and the resolved tracer does not. -/
theorem newConfig_tracer_tag_counterexample :
    ∃ cfg, newConfig ⟨some ⟨1⟩, some ⟨2⟩, some ⟨3⟩, "v"⟩
        (build [OptionCall.WithTracer (some ⟨7, "other", "0"⟩)]) = .ok cfg ∧
      cfg.meterTagged instrumentationName "v" ∧
      ¬ cfg.tracerTagged instrumentationName "v" := by
  refine ⟨_, rfl, ⟨_, rfl, rfl, rfl⟩, ?_⟩
  rintro ⟨t, ht, hname, -⟩
  cases ht
  revert hname
  decide

/-- C9, amended: for every sequence of constructor calls the resolved meter
is tagged with `instrumentationName` and `SemVersion()`, and when the
sequence has no `WithTracer` call the resolved tracer is tagged with the
same name and version. -/
theorem newConfig_same_instrumentation (tp : TracerProviderHandle)
    (mp : MeterProviderHandle) (prop : TextMapPropagator) (ver : String)
    (calls : List OptionCall) :
    ∃ cfg, newConfig ⟨some tp, some mp, prop, ver⟩ (build calls) = .ok cfg ∧
      cfg.meterTagged instrumentationName ver ∧
      ((∀ o ∈ calls, o.field ≠ Field.tracer) →
        cfg.tracerTagged instrumentationName ver) := by
  refine ⟨_, newConfig_build tp mp prop ver calls, ⟨_, rfl, rfl, rfl⟩, ?_⟩
  intro hno
  obtain ⟨cfg, hcfg, ht⟩ := newConfig_build_tracer tp mp prop ver calls hno
  rw [newConfig_build] at hcfg
  cases hcfg
  exact ⟨_, ht, rfl, rfl⟩

/-- Witness of C9, amended: after `WithStackTrace(false)` the tracer and
the meter carry the fixed name and the version. -/
theorem newConfig_same_instrumentation_witness :
    ∃ cfg, newConfig ⟨some ⟨1⟩, some ⟨2⟩, none, "v"⟩
        (build [OptionCall.WithStackTrace false]) = .ok cfg ∧
      cfg.meterTagged instrumentationName "v" ∧
      cfg.tracerTagged instrumentationName "v" := by
  obtain ⟨cfg, h1, h2, h3⟩ := newConfig_same_instrumentation ⟨1⟩ ⟨2⟩ none "v"
    [OptionCall.WithStackTrace false]
  exact ⟨cfg, h1, h2, h3 (by decide)⟩

/-! ## Separate resolutions -/

/-- C10: when resolution of a sequence succeeds with the record `c`, two
calls of `newConfig` with that sequence in the same environment return
distinct pointers to records that both equal `c`, and an assignment to
`withStackTrace` or `recordSourceOperation` through either pointer leaves
the record behind the other pointer equal to `c`. -/
theorem newConfigRef_twice_independent (env : Env) (opts : List option) (h : Heap)
    (c : config) (hc : newConfig env opts = .ok c) :
    ∃ h1 p1 h2 p2, newConfigRef env opts h = .ok (h1, p1) ∧
      newConfigRef env opts h1 = .ok (h2, p2) ∧ p1 ≠ p2 ∧
      Heap.load h2 p1 = .ok c ∧ Heap.load h2 p2 = .ok c ∧
      ∀ b : Bool,
        (∃ h3, setWithStackTrace p1 b h2 = .ok h3 ∧ Heap.load h3 p2 = .ok c) ∧
        (∃ h3, setRecordSourceOperation p1 b h2 = .ok h3 ∧ Heap.load h3 p2 = .ok c) ∧
        (∃ h3, setWithStackTrace p2 b h2 = .ok h3 ∧ Heap.load h3 p1 = .ok c) ∧
        (∃ h3, setRecordSourceOperation p2 b h2 = .ok h3 ∧ Heap.load h3 p1 = .ok c) := by
  have hne : h.length ≠ (h ++ [c]).length := by simp
  have hl1 : Heap.load ((h ++ [c]) ++ [c]) h.length = .ok c := by
    have hget : ((h ++ [c]) ++ [c])[h.length]? = some c := by
      rw [List.getElem?_append_left (by simp)]
      simp
    unfold Heap.load
    rw [hget]
  have hl2 : Heap.load ((h ++ [c]) ++ [c]) (h ++ [c]).length = .ok c :=
    Heap.load_alloc _ _
  refine ⟨h ++ [c], h.length, (h ++ [c]) ++ [c], (h ++ [c]).length, ?_, ?_, hne, hl1, hl2, ?_⟩
  · rw [newConfigRef_eq, hc]; rfl
  · rw [newConfigRef_eq, hc]; rfl
  · intro b
    refine ⟨?_, ?_, ?_, ?_⟩
    · obtain ⟨h3, hs, hl⟩ := setWithStackTrace_frame _ _ _ b c hl1 hne
      exact ⟨h3, hs, hl.trans hl2⟩
    · obtain ⟨h3, hs, hl⟩ := setRecordSourceOperation_frame _ _ _ b c hl1 hne
      exact ⟨h3, hs, hl.trans hl2⟩
    · obtain ⟨h3, hs, hl⟩ := setWithStackTrace_frame _ _ _ b c hl2 hne.symm
      exact ⟨h3, hs, hl.trans hl1⟩
    · obtain ⟨h3, hs, hl⟩ := setRecordSourceOperation_frame _ _ _ b c hl2 hne.symm
      exact ⟨h3, hs, hl.trans hl1⟩

/-- Witness of C10: two resolutions of `WithStackTrace(false)` on the empty
heap. -/
theorem newConfigRef_twice_independent_witness :
    ∃ h1 p1 h2 p2,
      newConfigRef ⟨some ⟨1⟩, some ⟨2⟩, none, "v"⟩ [WithStackTrace false] [] = .ok (h1, p1) ∧
      newConfigRef ⟨some ⟨1⟩, some ⟨2⟩, none, "v"⟩ [WithStackTrace false] h1 = .ok (h2, p2) ∧
      p1 ≠ p2 ∧ Heap.load h2 p1 = Heap.load h2 p2 ∧
      ∃ h3, setWithStackTrace p1 true h2 = .ok h3 ∧ Heap.load h3 p2 = Heap.load h2 p2 := by
  obtain ⟨h1, p1, h2, p2, e1, e2, hne, l1, l2, hb⟩ :=
    newConfigRef_twice_independent ⟨some ⟨1⟩, some ⟨2⟩, none, "v"⟩ [WithStackTrace false] []
      _ rfl
  obtain ⟨⟨h3, hs, hl⟩, -⟩ := hb true
  exact ⟨h1, p1, h2, p2, e1, e2, hne, l1.trans l2.symm, h3, hs, hl.trans l2.symm⟩

/-! ## Single options -/

/-- C11: each of the six constructors returns an option that, applied to any
record `c`, stores its argument in the field it is named after, whatever
that field held in `c`, and leaves the seven other fields as they are in
`c`. -/
theorem option_blind_overwrite_frame (c : config) :
    (∀ t : Tracer,
      (option.apply (WithTracer t) c).tracer = t ∧
      (option.apply (WithTracer t) c).meter = c.meter ∧
      (option.apply (WithTracer t) c).tracerProvider = c.tracerProvider ∧
      (option.apply (WithTracer t) c).meterProvider = c.meterProvider ∧
      (option.apply (WithTracer t) c).textMapPropagator = c.textMapPropagator ∧
      (option.apply (WithTracer t) c).spanNameFormatter = c.spanNameFormatter ∧
      (option.apply (WithTracer t) c).withStackTrace = c.withStackTrace ∧
      (option.apply (WithTracer t) c).recordSourceOperation = c.recordSourceOperation) ∧
    (∀ m : Meter,
      (option.apply (WithMeter m) c).meter = m ∧
      (option.apply (WithMeter m) c).tracer = c.tracer ∧
      (option.apply (WithMeter m) c).tracerProvider = c.tracerProvider ∧
      (option.apply (WithMeter m) c).meterProvider = c.meterProvider ∧
      (option.apply (WithMeter m) c).textMapPropagator = c.textMapPropagator ∧
      (option.apply (WithMeter m) c).spanNameFormatter = c.spanNameFormatter ∧
      (option.apply (WithMeter m) c).withStackTrace = c.withStackTrace ∧
      (option.apply (WithMeter m) c).recordSourceOperation = c.recordSourceOperation) ∧
    (∀ fn : SpanNameFormatter,
      (option.apply (WithSpanNameFormatter fn) c).spanNameFormatter = fn ∧
      (option.apply (WithSpanNameFormatter fn) c).tracer = c.tracer ∧
      (option.apply (WithSpanNameFormatter fn) c).meter = c.meter ∧
      (option.apply (WithSpanNameFormatter fn) c).tracerProvider = c.tracerProvider ∧
      (option.apply (WithSpanNameFormatter fn) c).meterProvider = c.meterProvider ∧
      (option.apply (WithSpanNameFormatter fn) c).textMapPropagator = c.textMapPropagator ∧
      (option.apply (WithSpanNameFormatter fn) c).withStackTrace = c.withStackTrace ∧
      (option.apply (WithSpanNameFormatter fn) c).recordSourceOperation
        = c.recordSourceOperation) ∧
    (∀ b : Bool,
      (option.apply (WithStackTrace b) c).withStackTrace = b ∧
      (option.apply (WithStackTrace b) c).tracer = c.tracer ∧
      (option.apply (WithStackTrace b) c).meter = c.meter ∧
      (option.apply (WithStackTrace b) c).tracerProvider = c.tracerProvider ∧
      (option.apply (WithStackTrace b) c).meterProvider = c.meterProvider ∧
      (option.apply (WithStackTrace b) c).textMapPropagator = c.textMapPropagator ∧
      (option.apply (WithStackTrace b) c).spanNameFormatter = c.spanNameFormatter ∧
      (option.apply (WithStackTrace b) c).recordSourceOperation = c.recordSourceOperation) ∧
    (∀ b : Bool,
      (option.apply (WithRecordSourceOperation b) c).recordSourceOperation = b ∧
      (option.apply (WithRecordSourceOperation b) c).tracer = c.tracer ∧
      (option.apply (WithRecordSourceOperation b) c).meter = c.meter ∧
      (option.apply (WithRecordSourceOperation b) c).tracerProvider = c.tracerProvider ∧
      (option.apply (WithRecordSourceOperation b) c).meterProvider = c.meterProvider ∧
      (option.apply (WithRecordSourceOperation b) c).textMapPropagator
        = c.textMapPropagator ∧
      (option.apply (WithRecordSourceOperation b) c).spanNameFormatter
        = c.spanNameFormatter ∧
      (option.apply (WithRecordSourceOperation b) c).withStackTrace = c.withStackTrace) ∧
    (∀ p : TextMapPropagator,
      (option.apply (WithTextMapPropagator p) c).textMapPropagator = p ∧
      (option.apply (WithTextMapPropagator p) c).tracer = c.tracer ∧
      (option.apply (WithTextMapPropagator p) c).meter = c.meter ∧
      (option.apply (WithTextMapPropagator p) c).tracerProvider = c.tracerProvider ∧
      (option.apply (WithTextMapPropagator p) c).meterProvider = c.meterProvider ∧
      (option.apply (WithTextMapPropagator p) c).spanNameFormatter = c.spanNameFormatter ∧
      (option.apply (WithTextMapPropagator p) c).withStackTrace = c.withStackTrace ∧
      (option.apply (WithTextMapPropagator p) c).recordSourceOperation
        = c.recordSourceOperation) := by
  refine ⟨fun t => ?_, fun m => ?_, fun fn => ?_, fun b => ?_, fun b => ?_, fun p => ?_⟩ <;>
    exact ⟨rfl, rfl, rfl, rfl, rfl, rfl, rfl, rfl⟩

/-! ## The dead option and the fixed providers -/

/-- C12: in every environment, inserting `WithMeter(m)` at any position of a
sequence of constructor calls does not change what `newConfig` returns,
and neither does deleting all `WithMeter` calls of a sequence. -/
theorem newConfig_WithMeter_dead (env : Env) :
    (∀ (pre post : List OptionCall) (m : Meter),
      newConfig env (build (pre ++ OptionCall.WithMeter m :: post))
        = newConfig env (build (pre ++ post))) ∧
    (∀ calls : List OptionCall,
      newConfig env (build (calls.filter (fun o => decide (o.field ≠ Field.meter))))
        = newConfig env (build calls)) := by
  constructor
  · intro pre post m
    apply newConfig_build_congr
    intro cfg x
    have habs := foldl_build_meter_absorb post
      ((build pre).foldl (fun cfg opt => option.apply opt cfg) cfg) x m
    simp only [build, List.map_append, List.map_cons, List.foldl_append,
      List.foldl_cons] at habs ⊢
    exact habs
  · intro calls
    exact newConfig_build_congr env _ _ (fun cfg x => foldl_build_filter_meter calls cfg x)

/-- C13: for non-nil global providers and every sequence of constructor
calls, the resolved `tracerProvider` and `meterProvider` are the global
ones and the resolved meter is the global meter provider's meter for
`instrumentationName` and `SemVersion()`, the same for every sequence;
when `WithTracer(t)` is the last call that assigns the tracer, the
resolved tracer is `t`, next to the global `tracerProvider`. -/
theorem newConfig_providers_fixed (tp : TracerProviderHandle)
    (mp : MeterProviderHandle) (prop : TextMapPropagator) (ver : String)
    (calls : List OptionCall) :
    ∃ cfg, newConfig ⟨some tp, some mp, prop, ver⟩ (build calls) = .ok cfg ∧
      cfg.tracerProvider = some tp ∧ cfg.meterProvider = some mp ∧
      MeterProvider.Meter (some mp) instrumentationName
        [MeterOption.WithInstrumentationVersion ver] = .ok cfg.meter ∧
      (∀ calls' : List OptionCall, ∃ cfg',
        newConfig ⟨some tp, some mp, prop, ver⟩ (build calls') = .ok cfg' ∧
        cfg'.meter = cfg.meter) ∧
      ∀ (pre post : List OptionCall) (t : Tracer),
        calls = pre ++ OptionCall.WithTracer t :: post →
        (∀ o ∈ post, o.field ≠ Field.tracer) →
        cfg.tracer = t ∧ cfg.tracerProvider = some tp := by
  refine ⟨_, newConfig_build tp mp prop ver calls, ?_, ?_, rfl, ?_, ?_⟩
  · exact foldl_build_tracerProvider calls _
  · exact foldl_build_meterProvider calls _
  · intro calls'
    exact ⟨_, newConfig_build tp mp prop ver calls', rfl⟩
  · intro pre post t hc hlast
    subst hc
    refine ⟨?_, foldl_build_tracerProvider _ _⟩
    have hsplit : build (pre ++ OptionCall.WithTracer t :: post)
        = build pre ++ (OptionCall.WithTracer t).build :: build post := by
      simp [build]
    have hw := writtenIn_foldl (OptionCall.WithTracer t) post
      (option.apply (OptionCall.WithTracer t).build
        ((build pre).foldl (fun cfg opt => option.apply opt cfg)
          { tracer := some ⟨tp.id, instrumentationName, ver⟩
            meter := none
            tracerProvider := some tp
            meterProvider := some mp
            textMapPropagator := prop
            spanNameFormatter := some defaultSpanNameFormatter
            withStackTrace := true
            recordSourceOperation := false }))
      hlast (writtenIn_build _ _)
    rw [hsplit, List.foldl_append, List.foldl_cons]
    exact hw

/-- Witness of C13: `WithTracer(t)`, then `WithStackTrace(false)`, resolves
to the tracer `t` and the global providers. -/
theorem newConfig_providers_fixed_witness :
    ∃ cfg, newConfig ⟨some ⟨1⟩, some ⟨2⟩, none, "v"⟩
        (build [OptionCall.WithTracer (some ⟨7, "other", "0"⟩),
          OptionCall.WithStackTrace false]) = .ok cfg ∧
      cfg.tracerProvider = some ⟨1⟩ ∧ cfg.meterProvider = some ⟨2⟩ ∧
      cfg.tracer = some ⟨7, "other", "0"⟩ := by
  obtain ⟨cfg, h1, h2, h3, -, -, h6⟩ := newConfig_providers_fixed ⟨1⟩ ⟨2⟩ none "v"
    [OptionCall.WithTracer (some ⟨7, "other", "0"⟩), OptionCall.WithStackTrace false]
  exact ⟨cfg, h1, h2, h3,
    (h6 [] [OptionCall.WithStackTrace false] (some ⟨7, "other", "0"⟩) rfl (by decide)).1⟩

end tracing
